import Mathlib

set_option maxHeartbeats 1000000

/-!
Shallow embedding of the `macaroon` package (macaroon core, third-party
caveat codec, serialization documents) and of the bakery `Discharger`.

Byte strings are modelled as `List Nat`; Go's `[]byte` values have all
elements below 256, which appears as an explicit hypothesis where it
matters (hex round-trips). The cryptographic primitives and the standard
library codecs (`crypto/hmac`, `crypto/sha256`, the nonce generator,
`encoding/json`, `encoding/base64`) are not part of the repository's
sources here; they are modelled from the spec as deterministic executable
functions with the inversion properties the spec assigns to them.
-/

/-- Go byte strings, one `Nat` per byte. -/
abbrev Bytes := List Nat

/-- The byte sequence of a Go string, one abstract byte per character
(`sig.Write([]byte(caveatId))` in `addCaveat`). -/
def strBytes (s : String) : Bytes := s.toList.map Char.toNat

/-- Modelled from the spec: `keyedHash` (crypto primitives adapter, not under
src/) — "keyed hashing (HMAC-like, deterministic, fixed output width)".
Modelled as a deterministic, injective, tagged pairing of key and data; the
claims proved here depend only on determinism and on being distinct from the
plain hash. -/
def keyedHash (key data : Bytes) : Bytes := 0 :: key.length :: (key ++ data)

/-- Modelled from the spec: the plain (non-keyed) SHA-256 hash used by
`bindForRequest` ("a plain (non-keyed) hash of their concatenation"). -/
def plainHash (data : Bytes) : Bytes := 1 :: data.length :: data

/-- Modelled from the spec: `encrypt` (crypto primitives adapter, not under
src/) — "authenticated symmetric encryption ... keyed by a byte secret".
Deterministic model whose ciphertexts decrypt exactly under the key that
produced them. -/
def encrypt (secret data : Bytes) : Bytes := secret.length :: (secret ++ data)

/-- Modelled from the spec: `decrypt` — authenticated decryption; succeeds
exactly on ciphertexts produced by `encrypt` under the same secret. -/
def decrypt (secret cipher : Bytes) : Option Bytes :=
  if cipher.take (secret.length + 1) = secret.length :: secret then
    some (cipher.drop (secret.length + 1))
  else none

/-- Lower-case hexadecimal digit, as in Go's `encoding/hex`. -/
def hexDigit (n : Nat) : Char :=
  if n < 10 then Char.ofNat (48 + n) else Char.ofNat (87 + n)

/-- Value of a hexadecimal digit character ('0'-'9', 'a'-'f', 'A'-'F'). -/
def hexVal (c : Char) : Option Nat :=
  if 48 ≤ c.toNat ∧ c.toNat ≤ 57 then some (c.toNat - 48)
  else if 97 ≤ c.toNat ∧ c.toNat ≤ 102 then some (c.toNat - 87)
  else if 65 ≤ c.toNat ∧ c.toNat ≤ 70 then some (c.toNat - 55)
  else none

/-- Two hex characters per byte, as `hex.EncodeToString` does. -/
def hexEncodeList : Bytes → List Char
  | [] => []
  | b :: rest => hexDigit (b / 16) :: hexDigit (b % 16) :: hexEncodeList rest

/-- Parse pairs of hex characters; fails on odd length or a non-hex
character, as `hex.DecodeString` does. -/
def hexDecodeList : List Char → Option Bytes
  | [] => some []
  | c1 :: c2 :: rest =>
    match hexVal c1, hexVal c2, hexDecodeList rest with
    | some h, some l, some tl => some ((h * 16 + l) :: tl)
    | _, _, _ => none
  | [_] => none

/-- Go stdlib `hex.EncodeToString`. -/
def hexEncode (bs : Bytes) : String := String.mk (hexEncodeList bs)

/-- Go stdlib `hex.DecodeString`; `none` on malformed input (the Go function
of this vintage returns nil bytes together with the error). -/
def hexDecode (s : String) : Option Bytes := hexDecodeList s.toList

/-- Modelled stdlib `base64.StdEncoding.EncodeToString`: what the claims
need of it is that it is an injective text encoding of byte strings with
`unaryDecodeList` as exact inverse, which this unary code is. -/
def unaryEncodeList : Bytes → List Char
  | [] => []
  | n :: rest => List.replicate n 'a' ++ 'b' :: unaryEncodeList rest

/-- Exact inverse of `unaryEncodeList`; fails on text not produced by it. -/
def unaryDecodeList : List Char → Option Bytes
  | [] => some []
  | c :: rest =>
    if c = 'b' then (unaryDecodeList rest).map (fun ns => 0 :: ns)
    else if c = 'a' then
      match unaryDecodeList rest with
      | some (n :: ns) => some ((n + 1) :: ns)
      | _ => none
    else none

/-- Modelled stdlib base64 encoding (text-safe encoding of the spec). -/
def b64Encode (bs : Bytes) : String := String.mk (unaryEncodeList bs)

/-- Modelled stdlib base64 decoding, exact inverse of `b64Encode`. -/
def b64Decode (s : String) : Option Bytes := unaryDecodeList s.toList

/-- ThirdPartyCaveatId holds the information encoded in a third-party
caveat id (macaroon.go). -/
structure ThirdPartyCaveatId where
  RootKey : Bytes
  Caveat : String
deriving DecidableEq, Repr

/-- Modelled stdlib `json.Marshal` of a `ThirdPartyCaveatId`: length-prefixed
root key followed by the condition's characters; injective, with
`unmarshalTPCId` as exact inverse. -/
def marshalTPCId (c : ThirdPartyCaveatId) : Bytes :=
  c.RootKey.length :: (c.RootKey ++ strBytes c.Caveat)

/-- Modelled stdlib `json.Unmarshal` into a `ThirdPartyCaveatId`; fails on
structurally invalid payloads. -/
def unmarshalTPCId (bs : Bytes) : Option ThirdPartyCaveatId :=
  match bs with
  | [] => none
  | n :: rest =>
    if n ≤ rest.length then
      some ⟨rest.take n, String.mk ((rest.drop n).map Char.ofNat)⟩
    else none

/-- Caveat holds a first person or third party caveat (macaroon.go). -/
structure Caveat where
  location : String
  caveatId : String
  verificationId : Bytes
deriving DecidableEq, Repr

/-- Macaroon holds a macaroon: location hint, id, ordered caveats and the
running signature (macaroon.go). -/
structure Macaroon where
  location : String
  id : String
  caveats : List Caveat
  sig : Bytes
deriving DecidableEq, Repr

/-- IsThirdParty reports whether the caveat must be satisfied by some third
party: `len(cav.verificationId) > 0`. -/
def Caveat.IsThirdParty (cav : Caveat) : Bool := cav.verificationId.length > 0

/-- New returns a new macaroon with the given root key, identifier and
location: `m.sig = keyedHash(rootKey, m.id)`. -/
def Macaroon.New (rootKey : Bytes) (id loc : String) : Macaroon :=
  { location := loc, id := id, caveats := [], sig := keyedHash rootKey (strBytes id) }

/-- addCaveat appends the caveat and folds it into the signature:
`sig := keyedHasher(m.sig); sig.Write(verificationId); sig.Write([]byte(caveatId))`. -/
def Macaroon.addCaveat (m : Macaroon) (caveatId : String) (verificationId : Bytes) (loc : String) : Macaroon :=
  { m with
    caveats := m.caveats ++ [{ location := loc, caveatId := caveatId, verificationId := verificationId }],
    sig := keyedHash m.sig (verificationId ++ strBytes caveatId) }

/-- bindForRequest binds a discharge macaroon's signature to the signature
of its parent macaroon (macaroon.go). -/
def bindForRequest (rootSig dischargeSig : Bytes) : Bytes :=
  if rootSig = dischargeSig then rootSig
  else plainHash (rootSig ++ dischargeSig)

/-- Bind prepares the macaroon for being used to discharge the macaroon
with the given rootSig: `m.sig = bindForRequest(rootSig, m.sig)`. -/
def Macaroon.Bind (m : Macaroon) (rootSig : Bytes) : Macaroon :=
  { m with sig := bindForRequest rootSig m.sig }

/-- AddFirstPartyCaveat adds a caveat verified by the target service:
`m.addCaveat(caveatId, nil, "")`. -/
def Macaroon.AddFirstPartyCaveat (m : Macaroon) (caveatId : String) : Macaroon :=
  m.addCaveat caveatId [] ""

/-- AddThirdPartyCaveat adds a third-party caveat. The random nonce of
`newNonce()` (not under src/) is passed explicitly; the Go method mutates
the macaroon and returns the text-encoded caveat id. -/
def Macaroon.AddThirdPartyCaveat (m : Macaroon) (thirdPartySecret : Bytes) (caveat loc : String) (nonce : Bytes) : Macaroon × String :=
  let data := marshalTPCId { RootKey := nonce, Caveat := caveat }
  let caveatId := encrypt thirdPartySecret data
  let verificationId := encrypt m.sig nonce
  let encCaveatId := b64Encode caveatId
  (m.addCaveat encCaveatId verificationId loc, encCaveatId)

/-- DecryptThirdPartyCaveatId decrypts a third-party caveat id given the
shared secret: base64-decode, decrypt, json-unmarshal (macaroon.go). -/
def DecryptThirdPartyCaveatId (secret : Bytes) (id : String) : Option ThirdPartyCaveatId :=
  match b64Decode id with
  | none => none
  | some decodedId =>
    match decrypt secret decodedId with
    | none => none
    | some plain => unmarshalTPCId plain

/-- The error kinds `verify` can return. `checker` wraps errors produced by
the caller-supplied first-party checker; `recursionLimit` is an artifact of
the fuel-bounded embedding of Go's unbounded recursion over discharge
macaroons and is never hit at adequate fuel. -/
inductive MacaroonError where
  | decryptFailure (index : Nat)
  | dischargeNotFound (index : Nat)
  | sigMismatch
  | recursionLimit
  | checker (msg : String)
deriving DecidableEq, Repr

/-- The caller-supplied first-party checker, Go's
`func(caveat string) (bool, error)`. -/
abbrev Checker := String → Bool × Option MacaroonError

/-- The discharge macaroons keyed by macaroon id,
Go's `map[string]*Macaroon`. -/
abbrev Discharges := List (String × Macaroon)

/-- The caveat loop of `Macaroon.verify` (macaroon.go lines 374-405).
`sub` is the recursive verification of a discharge macaroon
(`dm.verify(rootSig, cavKey, check, discharges)`), supplied by `verifyAux`
at one less fuel; `idx` is Go's loop index `i`, used in error values. -/
def verifyLoop (check : Checker) (discharges : Discharges)
    (sub : Macaroon → Bytes → Bytes → Bool × Option MacaroonError)
    (m : Macaroon) (rootSig : Bytes) : Nat → List Caveat → Bytes → Bool × Option MacaroonError
  | _, [], caveatSig =>
    if bindForRequest rootSig caveatSig = m.sig then (true, none)
    else (false, some MacaroonError.sigMismatch)
  | idx, cav :: rest, caveatSig =>
    if cav.IsThirdParty then
      match decrypt caveatSig cav.verificationId with
      | none => (false, some (MacaroonError.decryptFailure idx))
      | some cavKey =>
        match discharges.lookup cav.caveatId with
        | none => (false, some (MacaroonError.dischargeNotFound idx))
        | some dm =>
          if (sub dm rootSig cavKey).1 then
            verifyLoop check discharges sub m rootSig (idx + 1) rest
              (keyedHash caveatSig (cav.verificationId ++ strBytes cav.caveatId))
          else (false, (sub dm rootSig cavKey).2)
    else
      if (check cav.caveatId).1 then
        verifyLoop check discharges sub m rootSig (idx + 1) rest
          (keyedHash caveatSig (cav.verificationId ++ strBytes cav.caveatId))
      else (false, (check cav.caveatId).2)

/-- `Macaroon.verify` (macaroon.go lines 369-406), with `fuel` bounding the
recursion depth through discharge macaroons (Go's recursion is unbounded;
every claim is stated at adequate fuel). -/
def verifyAux (check : Checker) (discharges : Discharges) : Nat → Macaroon → Bytes → Bytes → Bool × Option MacaroonError
  | 0, m, rootSig, rootKey =>
    verifyLoop check discharges (fun _ _ _ => (false, some MacaroonError.recursionLimit)) m
      (if rootSig = [] then m.sig else rootSig) 0 m.caveats
      (keyedHash rootKey (strBytes m.id))
  | fuel + 1, m, rootSig, rootKey =>
    verifyLoop check discharges (verifyAux check discharges fuel) m
      (if rootSig = [] then m.sig else rootSig) 0 m.caveats
      (keyedHash rootKey (strBytes m.id))

/-- The `sub` function `verifyAux` passes to `verifyLoop` at a given fuel. -/
def subFn (check : Checker) (discharges : Discharges) : Nat → Macaroon → Bytes → Bytes → Bool × Option MacaroonError
  | 0 => fun _ _ _ => (false, some MacaroonError.recursionLimit)
  | fuel + 1 => verifyAux check discharges fuel

/-- The unexported `verify` method. -/
def Macaroon.verify (m : Macaroon) (fuel : Nat) (rootSig rootKey : Bytes) (check : Checker) (discharges : Discharges) : Bool × Option MacaroonError :=
  verifyAux check discharges fuel m rootSig rootKey

/-- Verify verifies that the receiving macaroon is valid:
`m.verify(m.sig, rootKey, check, discharges)`. -/
def Macaroon.Verify (m : Macaroon) (fuel : Nat) (rootKey : Bytes) (check : Checker) (discharges : Discharges) : Bool × Option MacaroonError :=
  m.verify fuel m.sig rootKey check discharges

/-- One step of the signature chaining rule:
`keyed_hash_with_key(signature, verification_id || caveat_id)`. -/
def chainStep (s : Bytes) (cav : Caveat) : Bytes :=
  keyedHash s (cav.verificationId ++ strBytes cav.caveatId)

/-- The signature chain folded over a caveat sequence. -/
def chainFrom (s : Bytes) (cavs : List Caveat) : Bytes := cavs.foldl chainStep s

/-- "Every caveat check succeeds" for a caveat sequence: mirrors the success
conditions of each iteration of `verifyLoop` (decryption succeeds, the
discharge macaroon is found and recursively verifies; or the first-party
checker returns true), without the final signature comparison. -/
def caveatsOkLoop (check : Checker) (discharges : Discharges)
    (sub : Macaroon → Bytes → Bytes → Bool × Option MacaroonError)
    (rootSig : Bytes) : List Caveat → Bytes → Bool
  | [], _ => true
  | cav :: rest, caveatSig =>
    (if cav.IsThirdParty then
      match decrypt caveatSig cav.verificationId with
      | none => false
      | some cavKey =>
        match discharges.lookup cav.caveatId with
        | none => false
        | some dm => (sub dm rootSig cavKey).1
     else (check cav.caveatId).1)
    && caveatsOkLoop check discharges sub rootSig rest (chainStep caveatSig cav)

/-- `caveatsOkLoop` at the `sub` used by `verifyAux` at the given fuel. -/
def caveatsOk (check : Checker) (discharges : Discharges) (fuel : Nat) (rootSig : Bytes) (cavs : List Caveat) (caveatSig : Bytes) : Bool :=
  caveatsOkLoop check discharges (subFn check discharges fuel) rootSig cavs caveatSig

/-- A caveat addition: first-party, or third-party with its secret,
condition, location and (explicit) nonce. -/
inductive CaveatOp where
  | first (cond : String)
  | third (secret : Bytes) (cond : String) (loc : String) (nonce : Bytes)

/-- Apply a caveat addition to a macaroon. -/
def applyOp (m : Macaroon) : CaveatOp → Macaroon
  | CaveatOp.first cond => m.AddFirstPartyCaveat cond
  | CaveatOp.third secret cond loc nonce => (m.AddThirdPartyCaveat secret cond loc nonce).1

/-- The caveat a `CaveatOp` appends when applied to `m`. -/
def opCaveat (m : Macaroon) : CaveatOp → Caveat
  | CaveatOp.first cond => { location := "", caveatId := cond, verificationId := [] }
  | CaveatOp.third secret cond loc nonce =>
    { location := loc,
      caveatId := b64Encode (encrypt secret (marshalTPCId { RootKey := nonce, Caveat := cond })),
      verificationId := encrypt m.sig nonce }

/-- CaveatDoc defines a serializable document for caveats (macaroon.go). -/
structure CaveatDoc where
  Location : String
  CID : String
  VID : String
deriving DecidableEq, Repr

/-- `Caveat.MarshalDoc`: the caveat's serializable document, with
hex-encoded verification id. -/
def Caveat.MarshalDoc (cav : Caveat) : CaveatDoc :=
  { Location := cav.location, CID := cav.caveatId, VID := hexEncode cav.verificationId }

/-- `Caveat.UnmarshalDoc` mutates the receiver field by field and returns
the resulting receiver state together with the error, if any; on a hex
error the verification id is the nil result of `hex.DecodeString`. -/
def Caveat.UnmarshalDoc (cav : Caveat) (doc : CaveatDoc) : Caveat × Option String :=
  let c1 := { cav with location := doc.Location, caveatId := doc.CID }
  match hexDecode doc.VID with
  | none => ({ c1 with verificationId := [] }, some "cannot decode verfification id")
  | some v => ({ c1 with verificationId := v }, none)

/-- MacaroonDoc defines a serializable document for macaroons
(macaroon.go); its caveats field holds the caveats themselves. -/
structure MacaroonDoc where
  Caveats : List Caveat
  Location : String
  Identifier : String
  Signature : String
deriving DecidableEq, Repr

/-- `Macaroon.MarshalDoc`. -/
def Macaroon.MarshalDoc (m : Macaroon) : MacaroonDoc :=
  { Caveats := m.caveats, Location := m.location, Identifier := m.id,
    Signature := hexEncode m.sig }

/-- `Macaroon.UnmarshalDoc` mutates the receiver field by field: location
and id are overwritten before the signature is hex-decoded, so on a hex
error it returns with those fields already updated, the signature set to
the nil result of `hex.DecodeString`, and the caveats untouched. -/
def Macaroon.UnmarshalDoc (m : Macaroon) (doc : MacaroonDoc) : Macaroon × Option String :=
  let m1 := { m with location := doc.Location, id := doc.Identifier }
  match hexDecode doc.Signature with
  | none => ({ m1 with sig := [] }, some "cannot decode macaroon signature")
  | some sg => ({ m1 with sig := sg, caveats := doc.Caveats }, none)

/-- The JSON wire form of a macaroon: the `MacaroonDoc` with each caveat
replaced by its `CaveatDoc` (what `json.Marshal` emits through
`Caveat.MarshalJSON`). -/
structure MacaroonWire where
  caveats : List CaveatDoc
  location : String
  identifier : String
  signature : String
deriving DecidableEq, Repr

/-- Encoding a macaroon to its wire document:
`MarshalDoc` then `Caveat.MarshalDoc` on each caveat. -/
def Macaroon.marshalJSONWire (m : Macaroon) : MacaroonWire :=
  { caveats := m.caveats.map Caveat.MarshalDoc, location := m.location,
    identifier := m.id, signature := hexEncode m.sig }

/-- Decoding the caveat documents into fresh (zero-valued) caveats, as
`json.Unmarshal` does for the `[]Caveat` field; any failure fails the
whole unmarshal. -/
def decodeCaveatDocs : List CaveatDoc → Option (List Caveat)
  | [] => some []
  | d :: rest =>
    match Caveat.UnmarshalDoc { location := "", caveatId := "", verificationId := [] } d with
    | (_, some _) => none
    | (c, none) => (decodeCaveatDocs rest).map (fun cs => c :: cs)

/-- Decoding a wire document into the receiver: `json.Unmarshal` decodes
the document (leaving the receiver untouched on failure), then
`Macaroon.UnmarshalDoc` is applied to the receiver. -/
def Macaroon.unmarshalJSONWire (m : Macaroon) (w : MacaroonWire) : Macaroon × Option String :=
  match decodeCaveatDocs w.caveats with
  | none => (m, some "cannot unmarshal json data")
  | some cavs =>
    m.UnmarshalDoc { Caveats := cavs, Location := w.location,
                     Identifier := w.identifier, Signature := w.signature }

/-- A Discharger can be used to discharge third party caveats (bakery
package): decoder, checker and minter capabilities, generic in the bakery
caveat type. -/
structure Discharger (C : Type) where
  Checker : String → Except String (List C)
  Decoder : String → Except String (Bytes × String)
  Factory : String → Bytes → List C → Except String Macaroon

/-- Discharge creates a macaroon that discharges the third party caveat
with the given id: decode the id, check the condition, mint. -/
def Discharger.Discharge (d : Discharger C) (id : String) : Except String Macaroon :=
  match d.Decoder id with
  | Except.error e => Except.error ("discharger cannot decode caveat id: " ++ e)
  | Except.ok (rootKey, condition) =>
    match d.Checker condition with
    | Except.error e => Except.error e
    | Except.ok caveats => d.Factory id rootKey caveats

/-- Modelled from the spec: `bakery.Service.NewMacaroon` (not under src/)
"mints a new macaroon with the given id and caveats" — mint via `New` from
the root key and id, then attach each caveat with `AddFirstPartyCaveat`. -/
def specNewMacaroon (loc : String) (id : String) (rootKey : Bytes) (caveats : List String) : Except String Macaroon :=
  Except.ok (caveats.foldl Macaroon.AddFirstPartyCaveat (Macaroon.New rootKey id loc))

/-- A checker that always reports the caveat satisfied. -/
def alwaysOk : Checker := fun _ => (true, none)

/-- A checker that reports every caveat satisfied while also returning an
error alongside. -/
def errTrueChecker : Checker := fun _ => (true, some (MacaroonError.checker "boom"))

/-- A checker that rejects every caveat with an error. -/
def rejectChecker : Checker := fun _ => (false, some (MacaroonError.checker "not a member"))

/-- Two checkers that agree on the boolean and on the error whenever the
boolean is false (they may differ in the error alongside a true result). -/
def CheckerAgree (ch1 ch2 : Checker) : Prop :=
  ∀ s, (ch1 s).1 = (ch2 s).1 ∧ ((ch1 s).1 = false → (ch1 s).2 = (ch2 s).2)

/-- The root macaroon of the third-party scenario: mint, then add one
third-party caveat. -/
def scenarioRoot (rootKey : Bytes) (id loc : String) (secret : Bytes) (cond tloc : String) (nonce : Bytes) : Macaroon × String :=
  (Macaroon.New rootKey id loc).AddThirdPartyCaveat secret cond tloc nonce

/-- The correctly minted and correctly bound discharge macaroon for
`scenarioRoot`: minted with the nonce as root key and the caveat id as its
id, then bound to the root's signature. -/
def scenarioDischarge (p : Macaroon × String) (dloc : String) (nonce : Bytes) : Macaroon :=
  (Macaroon.New nonce p.2 dloc).Bind p.1.sig

/-- A macaroon with one first-party and one third-party caveat, used for
the serialization round-trip witness. -/
def c7SampleMacaroon : Macaroon :=
  { location := "loc", id := "ident",
    caveats := [{ location := "", caveatId := "c1", verificationId := [] },
                { location := "t", caveatId := "c2", verificationId := [7, 255] }],
    sig := [0, 16, 255] }

/-- An unrelated receiver macaroon for the round-trip witness. -/
def c7Receiver : Macaroon :=
  { location := "x", id := "y", caveats := [], sig := [1] }

/-- A concrete discharger: its decoder fails on "bad"; its checker rejects
the condition "is-member" and accepts anything else unconditionally. -/
def witnessDischarger : Discharger String :=
  { Checker := fun cond =>
      if cond = "is-member" then Except.error "condition rejected" else Except.ok []
  , Decoder := fun s =>
      if s = "bad" then Except.error "malformed"
      else if s = "good" then Except.ok ([9], "ok-cond") else Except.ok ([9], "is-member")
  , Factory := fun id rk _ => Except.ok (Macaroon.New rk id "F") }

/-! Helper lemmas. -/

theorem listTakeAppend {α : Type _} (k m : List α) : (k ++ m).take k.length = k := by
  induction k with
  | nil => rfl
  | cons a t ih => simp [ih]

theorem listDropAppend {α : Type _} (k m : List α) : (k ++ m).drop k.length = m := by
  induction k with
  | nil => rfl
  | cons a t ih => simp [ih]

/-- Authenticated decryption inverts encryption under the same secret. -/
theorem decrypt_encrypt (k m : Bytes) : decrypt k (encrypt k m) = some m := by
  unfold decrypt encrypt
  rw [if_pos]
  · simp [listDropAppend]
  · simp [listTakeAppend]

theorem unaryDecode_replicate (n : Nat) (tail : List Char) (ns : Bytes)
    (h : unaryDecodeList tail = some ns) :
    unaryDecodeList (List.replicate n 'a' ++ 'b' :: tail) = some (n :: ns) := by
  induction n with
  | zero => simp [unaryDecodeList, h]
  | succ k ih => simp [List.replicate_succ, unaryDecodeList, ih]

/-- The modelled base64 codec round-trips. -/
theorem b64_roundtrip (bs : Bytes) : b64Decode (b64Encode bs) = some bs := by
  show unaryDecodeList (unaryEncodeList bs) = some bs
  induction bs with
  | nil => rfl
  | cons n rest ih =>
    simp only [unaryEncodeList]
    exact unaryDecode_replicate n (unaryEncodeList rest) rest ih

theorem hexVal_hexDigit : ∀ n : Nat, n < 16 → hexVal (hexDigit n) = some n := by decide

/-- Hex round-trips on genuine byte values. -/
theorem hex_roundtrip (bs : Bytes) (h : ∀ b ∈ bs, b < 256) :
    hexDecode (hexEncode bs) = some bs := by
  show hexDecodeList (hexEncodeList bs) = some bs
  induction bs with
  | nil => rfl
  | cons b rest ih =>
    have hb : b < 256 := h b (by simp)
    have h1 : b / 16 < 16 := by omega
    have h2 : b % 16 < 16 := by omega
    have ih' := ih (fun x hx => h x (by simp [hx]))
    simp [hexEncodeList, hexDecodeList, hexVal_hexDigit _ h1, hexVal_hexDigit _ h2, ih']
    omega

theorem stringMkToList (s : String) : String.mk s.toList = s := rfl

/-- The modelled json codec for third-party caveat ids round-trips. -/
theorem unmarshal_marshal_tpc (c : ThirdPartyCaveatId) :
    unmarshalTPCId (marshalTPCId c) = some c := by
  show (if c.RootKey.length ≤ (c.RootKey ++ strBytes c.Caveat).length then
      some (⟨(c.RootKey ++ strBytes c.Caveat).take c.RootKey.length,
        String.mk (((c.RootKey ++ strBytes c.Caveat).drop c.RootKey.length).map Char.ofNat)⟩ : ThirdPartyCaveatId)
    else none) = some c
  rw [if_pos (by simp), listTakeAppend, listDropAppend]
  simp [strBytes, List.map_map, Function.comp_def, Char.ofNat_toNat, stringMkToList]

/-- `verifyAux` is the caveat loop at `subFn`, after Go's empty-rootSig
normalization. -/
theorem verifyAux_unfold (check : Checker) (ds : Discharges) (fuel : Nat) (m : Macaroon)
    (rootSig rootKey : Bytes) :
    verifyAux check ds fuel m rootSig rootKey
      = verifyLoop check ds (subFn check ds fuel) m (if rootSig = [] then m.sig else rootSig)
          0 m.caveats (keyedHash rootKey (strBytes m.id)) := by
  cases fuel <;> rfl

theorem keyedHash_ne_nil (k d : Bytes) : keyedHash k d ≠ [] := by simp [keyedHash]

theorem chainFrom_cons (s : Bytes) (c : Caveat) (cs : List Caveat) :
    chainFrom s (c :: cs) = chainFrom (chainStep s c) cs := rfl

theorem chainFrom_append (s : Bytes) (l1 l2 : List Caveat) :
    chainFrom s (l1 ++ l2) = chainFrom (chainFrom s l1) l2 := List.foldl_append ..

/-- Running the caveat loop past a prefix whose caveats all check out. -/
theorem verifyLoop_append (check : Checker) (ds : Discharges)
    (sub : Macaroon → Bytes → Bytes → Bool × Option MacaroonError)
    (m : Macaroon) (rootSig : Bytes) :
    ∀ (pre rest : List Caveat) (idx : Nat) (s : Bytes),
      caveatsOkLoop check ds sub rootSig pre s = true →
      verifyLoop check ds sub m rootSig idx (pre ++ rest) s
        = verifyLoop check ds sub m rootSig (idx + pre.length) rest (chainFrom s pre) := by
  intro pre
  induction pre with
  | nil => intro rest idx s _; simp [chainFrom]
  | cons cav pre ih =>
    intro rest idx s hok
    simp only [caveatsOkLoop, Bool.and_eq_true] at hok
    obtain ⟨h1, h2⟩ := hok
    have harith : idx + 1 + pre.length = idx + (cav :: pre).length := by
      simp [List.length_cons]; omega
    by_cases htp : cav.IsThirdParty
    · rw [if_pos htp] at h1
      cases hd : decrypt s cav.verificationId with
      | none => simp only [hd] at h1; exact Bool.noConfusion h1
      | some cavKey =>
        simp only [hd] at h1
        cases hl : ds.lookup cav.caveatId with
        | none => simp only [hl] at h1; exact Bool.noConfusion h1
        | some dm =>
          simp only [hl] at h1
          have ihx := ih rest (idx + 1) (chainStep s cav) h2
          simp only [chainStep] at ihx
          simp [verifyLoop, htp, hd, hl, h1, ihx, chainFrom_cons, chainStep, harith]
    · rw [if_neg htp] at h1
      have ihx := ih rest (idx + 1) (chainStep s cav) h2
      simp only [chainStep] at ihx
      simp [verifyLoop, htp, h1, ihx, chainFrom_cons, chainStep, harith]

/-- When every caveat checks out, `verifyLoop` reduces to the final
signature comparison. -/
theorem verifyLoop_run (check : Checker) (ds : Discharges)
    (sub : Macaroon → Bytes → Bytes → Bool × Option MacaroonError)
    (m : Macaroon) (rootSig : Bytes) (cavs : List Caveat) (idx : Nat) (s : Bytes)
    (hok : caveatsOkLoop check ds sub rootSig cavs s = true) :
    verifyLoop check ds sub m rootSig idx cavs s
      = if bindForRequest rootSig (chainFrom s cavs) = m.sig then (true, none)
        else (false, some MacaroonError.sigMismatch) := by
  have h := verifyLoop_append check ds sub m rootSig cavs [] idx s hok
  rw [List.append_nil] at h
  rw [h]
  rfl

/-- The caveat loop only looks at the checker's boolean, and at its error
only when the boolean is false. -/
theorem verifyLoop_congr (ds : Discharges) (ch1 ch2 : Checker) (hag : CheckerAgree ch1 ch2)
    (sub1 sub2 : Macaroon → Bytes → Bytes → Bool × Option MacaroonError)
    (hsub : ∀ dm r k, sub1 dm r k = sub2 dm r k) :
    ∀ (cavs : List Caveat) (m : Macaroon) (rootSig : Bytes) (idx : Nat) (s : Bytes),
      verifyLoop ch1 ds sub1 m rootSig idx cavs s = verifyLoop ch2 ds sub2 m rootSig idx cavs s := by
  intro cavs
  induction cavs with
  | nil => intro m rootSig idx s; rfl
  | cons cav rest ih =>
    intro m rootSig idx s
    by_cases htp : cav.IsThirdParty
    · simp [verifyLoop, htp, hsub, ih]
    · obtain ⟨hb, he⟩ := hag cav.caveatId
      by_cases hx : (ch2 cav.caveatId).1 = true
      · simp [verifyLoop, htp, hb, hx, ih]
      · simp only [Bool.not_eq_true] at hx
        have hx1 : (ch1 cav.caveatId).1 = false := hb.trans hx
        simp [verifyLoop, htp, hx, hx1, he hx1]

/-- `verify` only looks at the checker's boolean, and at its error only
when the boolean is false. -/
theorem verifyAux_congr (ds : Discharges) (ch1 ch2 : Checker) (hag : CheckerAgree ch1 ch2) :
    ∀ (fuel : Nat) (m : Macaroon) (rootSig rootKey : Bytes),
      verifyAux ch1 ds fuel m rootSig rootKey = verifyAux ch2 ds fuel m rootSig rootKey := by
  intro fuel
  induction fuel with
  | zero =>
    intro m rootSig rootKey
    rw [verifyAux_unfold, verifyAux_unfold]
    exact verifyLoop_congr ds ch1 ch2 hag _ _ (fun _ _ _ => rfl) _ _ _ _ _
  | succ f ihf =>
    intro m rootSig rootKey
    rw [verifyAux_unfold, verifyAux_unfold]
    exact verifyLoop_congr ds ch1 ch2 hag _ _ (fun dm r k => ihf dm r k) _ _ _ _ _

theorem applyOp_caveats (m : Macaroon) (op : CaveatOp) :
    (applyOp m op).caveats = m.caveats ++ [opCaveat m op] := by cases op <;> rfl

theorem applyOp_sig (m : Macaroon) (op : CaveatOp) :
    (applyOp m op).sig = chainStep m.sig (opCaveat m op) := by cases op <;> rfl

theorem applyOp_id (m : Macaroon) (op : CaveatOp) : (applyOp m op).id = m.id := by
  cases op <;> rfl

theorem foldl_applyOp_id (ops : List CaveatOp) : ∀ m : Macaroon,
    (ops.foldl applyOp m).id = m.id := by
  induction ops with
  | nil => intro m; rfl
  | cons op ops ih => intro m; rw [List.foldl_cons, ih, applyOp_id]

/-- The invariant of the signature chain: if a macaroon's signature is the
chain over its caveats, any sequence of caveat additions preserves that. -/
theorem foldl_applyOp_chain (ops : List CaveatOp) : ∀ (m : Macaroon) (seed : Bytes),
    m.sig = chainFrom seed m.caveats →
    (ops.foldl applyOp m).sig = chainFrom seed (ops.foldl applyOp m).caveats := by
  induction ops with
  | nil => intro m seed h; exact h
  | cons op ops ih =>
    intro m seed h
    rw [List.foldl_cons]
    apply ih
    rw [applyOp_sig, applyOp_caveats, chainFrom_append, h]
    rfl

theorem foldl_first_eq_ops (conds : List String) : ∀ m : Macaroon,
    conds.foldl Macaroon.AddFirstPartyCaveat m = (conds.map CaveatOp.first).foldl applyOp m := by
  induction conds with
  | nil => intro m; rfl
  | cons c cs ih => intro m; simp [List.foldl_cons, ih, applyOp]

theorem foldl_first_caveats (conds : List String) : ∀ m : Macaroon,
    (conds.foldl Macaroon.AddFirstPartyCaveat m).caveats
      = m.caveats ++ conds.map (fun c => { location := "", caveatId := c, verificationId := [] }) := by
  induction conds with
  | nil => intro m; simp
  | cons c cs ih =>
    intro m
    simp [List.foldl_cons, ih, Macaroon.AddFirstPartyCaveat, Macaroon.addCaveat]

/-- A caveat sequence of first-party caveats checks out under any checker
that reports every condition satisfied. -/
theorem caveatsOkLoop_first (check : Checker) (ds : Discharges)
    (sub : Macaroon → Bytes → Bytes → Bool × Option MacaroonError) (rootSig : Bytes)
    (hch : ∀ c, (check c).1 = true) :
    ∀ (cavs : List Caveat) (s : Bytes), (∀ c ∈ cavs, c.IsThirdParty = false) →
      caveatsOkLoop check ds sub rootSig cavs s = true := by
  intro cavs
  induction cavs with
  | nil => intro s _; rfl
  | cons cav rest ih =>
    intro s hfp
    have h1 : cav.IsThirdParty = false := hfp cav (by simp)
    simp [caveatsOkLoop, h1, hch, ih _ (fun c hc => hfp c (by simp [hc]))]

/-- A caveat whose verification id is a ciphertext is third-party. -/
theorem isThirdParty_encrypt (l c : String) (s n : Bytes) :
    Caveat.IsThirdParty { location := l, caveatId := c, verificationId := encrypt s n } = true := by
  simp [Caveat.IsThirdParty, encrypt]

theorem lookupConsSelf {β : Type _} (a : String) (b : β) (l : List (String × β)) :
    List.lookup a ((a, b) :: l) = some b := by
  simp [List.lookup]

/-- C1: every caveat addition (`addCaveat`, and through it
`AddFirstPartyCaveat` and `AddThirdPartyCaveat`) sets the new signature to
the keyed hash, keyed by the previous signature, of the caveat's
verification id concatenated with its caveat id — the verification id
being empty bytes for first-party caveats — and consequently the final
signature of a macaroon built by any sequence of caveat additions is the
fold of this rule over its caveat sequence starting from
`keyedHash(rootKey, id)`. -/
theorem c1_signature_chain :
    (∀ (m : Macaroon) (cid : String) (vid : Bytes) (loc : String),
      (m.addCaveat cid vid loc).sig = keyedHash m.sig (vid ++ strBytes cid)) ∧
    (∀ (m : Macaroon) (cond : String),
      (m.AddFirstPartyCaveat cond).sig = keyedHash m.sig ([] ++ strBytes cond)) ∧
    (∀ (m : Macaroon) (secret : Bytes) (cond loc : String) (nonce : Bytes),
      ((m.AddThirdPartyCaveat secret cond loc nonce).1).sig
        = keyedHash m.sig (encrypt m.sig nonce
            ++ strBytes (b64Encode (encrypt secret (marshalTPCId { RootKey := nonce, Caveat := cond }))))) ∧
    (∀ (rootKey : Bytes) (id loc : String) (ops : List CaveatOp),
      (ops.foldl applyOp (Macaroon.New rootKey id loc)).sig
        = chainFrom (keyedHash rootKey (strBytes id))
            (ops.foldl applyOp (Macaroon.New rootKey id loc)).caveats) := by
  refine ⟨fun m cid vid loc => rfl, fun m cond => rfl, fun m secret cond loc nonce => rfl,
    fun rootKey id loc ops => ?_⟩
  apply foldl_applyOp_chain
  rfl

/-- C6: `bindForRequest` returns the root signature unchanged when the two
signatures are byte-equal, and otherwise the plain (non-keyed) hash of
their concatenation; in particular it is idempotent on equal signatures,
and `Bind` installs it as the macaroon's signature. -/
theorem c6_bind_for_request :
    (∀ r s : Bytes, bindForRequest r s = if r = s then r else plainHash (r ++ s)) ∧
    (∀ s : Bytes, bindForRequest s s = s) ∧
    (∀ (m : Macaroon) (rootSig : Bytes), (m.Bind rootSig).sig = bindForRequest rootSig m.sig) :=
  ⟨fun _ _ => rfl, fun s => by simp [bindForRequest], fun _ _ => rfl⟩

/-- C8: `DecryptThirdPartyCaveatId` with the same shared secret inverts the
encrypt-then-text-encode steps of `AddThirdPartyCaveat`: it recovers the
original condition and the nonce generated during the addition as the
discharge root key. -/
theorem c8_codec_inverse (m : Macaroon) (secret : Bytes) (cond loc : String) (nonce : Bytes) :
    DecryptThirdPartyCaveatId secret ((m.AddThirdPartyCaveat secret cond loc nonce).2)
      = some { RootKey := nonce, Caveat := cond } := by
  simp [Macaroon.AddThirdPartyCaveat, DecryptThirdPartyCaveatId, b64_roundtrip,
    decrypt_encrypt, unmarshal_marshal_tpc]

/-- C10: `Macaroon.UnmarshalDoc` is not atomic on error — on a document
whose signature is not valid hex it returns an error, with the receiver's
location and id already overwritten by the document's values (the caveats
are untouched and the signature holds the nil result of the failed hex
decode), leaving the macaroon partially updated. -/
theorem c10_unmarshal_partial (m : Macaroon) (doc : MacaroonDoc)
    (h : hexDecode doc.Signature = none) :
    Macaroon.UnmarshalDoc m doc
      = ({ location := doc.Location, id := doc.Identifier, caveats := m.caveats, sig := [] },
         some "cannot decode macaroon signature") := by
  simp [Macaroon.UnmarshalDoc, h]

/-- C10 witness: a signature field that is not valid hex leaves the
receiver with the document's location and id but its old caveats. -/
theorem c10_witness :
    hexDecode "zz" = none ∧
    Macaroon.UnmarshalDoc { location := "old", id := "oldid", caveats := [], sig := [7] }
        { Caveats := [], Location := "newloc", Identifier := "newid", Signature := "zz" }
      = ({ location := "newloc", id := "newid", caveats := [], sig := [] },
         some "cannot decode macaroon signature") :=
  ⟨by decide, c10_unmarshal_partial _ _ (by decide)⟩

/-- C2: whenever every caveat check succeeds but the bound recomputed
chain signature is not byte-equal to the stored signature, Verify returns
false with the signature-mismatch error — caveat satisfaction never
authorizes a macaroon whose signature does not match. -/
theorem c2_signature_mismatch (fuel : Nat) (m : Macaroon) (rootKey : Bytes)
    (check : Checker) (ds : Discharges)
    (hok : caveatsOk check ds fuel m.sig m.caveats (keyedHash rootKey (strBytes m.id)) = true)
    (hne : bindForRequest m.sig (chainFrom (keyedHash rootKey (strBytes m.id)) m.caveats) ≠ m.sig) :
    m.Verify fuel rootKey check ds = (false, some MacaroonError.sigMismatch) := by
  unfold Macaroon.Verify Macaroon.verify
  rw [verifyAux_unfold, ite_self]
  unfold caveatsOk at hok
  rw [verifyLoop_run check ds (subFn check ds fuel) m m.sig m.caveats 0
    (keyedHash rootKey (strBytes m.id)) hok]
  rw [if_neg hne]

/-- C2 witness: a macaroon whose stored signature was replaced by garbage
has no failing caveat checks yet fails with the signature mismatch. -/
theorem c2_witness :
    caveatsOk alwaysOk [] 1 [9] [] (keyedHash [1] (strBytes "i")) = true ∧
    bindForRequest [9] (chainFrom (keyedHash [1] (strBytes "i")) []) ≠ [9] ∧
    Macaroon.Verify { location := "l", id := "i", caveats := [], sig := [9] } 1 [1] alwaysOk []
      = (false, some MacaroonError.sigMismatch) :=
  ⟨by decide, by decide,
    c2_signature_mismatch 1 { location := "l", id := "i", caveats := [], sig := [9] } [1]
      alwaysOk [] (by decide) (by decide)⟩

/-- C3: a macaroon minted with `New` and extended with any sequence of
first-party caveats (hence containing no third-party caveats) verifies
successfully with the same root key, a checker that always reports
satisfied, and an empty discharge map. -/
theorem c3_mint_verify (rootKey : Bytes) (id loc : String) (conds : List String) (fuel : Nat) :
    (conds.foldl Macaroon.AddFirstPartyCaveat (Macaroon.New rootKey id loc)).Verify
      fuel rootKey alwaysOk [] = (true, none) := by
  set m := conds.foldl Macaroon.AddFirstPartyCaveat (Macaroon.New rootKey id loc) with hm
  have hid : m.id = id := by
    rw [hm, foldl_first_eq_ops, foldl_applyOp_id]; rfl
  have hfp : ∀ c ∈ m.caveats, c.IsThirdParty = false := by
    intro c hc
    rw [hm, foldl_first_caveats] at hc
    simp [Macaroon.New] at hc
    obtain ⟨x, _, hcx⟩ := hc
    rw [← hcx]; rfl
  have hsig : m.sig = chainFrom (keyedHash rootKey (strBytes id)) m.caveats := by
    rw [hm, foldl_first_eq_ops]
    apply foldl_applyOp_chain
    rfl
  unfold Macaroon.Verify Macaroon.verify
  rw [verifyAux_unfold, ite_self, hid]
  rw [verifyLoop_run alwaysOk [] (subFn alwaysOk [] fuel) m m.sig m.caveats 0
    (keyedHash rootKey (strBytes id))
    (caveatsOkLoop_first alwaysOk [] (subFn alwaysOk [] fuel) m.sig (fun _ => rfl)
      m.caveats (keyedHash rootKey (strBytes id)) hfp)]
  rw [← hsig]
  simp [bindForRequest]

/-- C4 counterexample: on a macaroon with one first-party caveat, a
checker that returns an error alongside a true boolean does not abort
Verify and its error is not surfaced — Verify discards it and returns
(true, none), contradicting "a check error is always surfaced regardless
of the boolean". -/
theorem c4_counterexample :
    errTrueChecker "c" = (true, some (MacaroonError.checker "boom")) ∧
    ((Macaroon.New [1] "i" "l").AddFirstPartyCaveat "c").Verify 0 [1] errTrueChecker []
      = (true, none) :=
  ⟨rfl, by decide⟩

/-- C4 amended: when the checker reports the first failing first-party
caveat not satisfied (boolean false), Verify aborts and returns the
checker's error; an error returned alongside a true boolean is discarded —
Verify's outcome depends on the checker's errors only through false
results. -/
theorem c4_amended (fuel : Nat) (m : Macaroon) (rootKey : Bytes) (ds : Discharges) :
    (∀ (check : Checker) (pre : List Caveat) (cav : Caveat) (rest : List Caveat)
        (e : Option MacaroonError),
      m.caveats = pre ++ cav :: rest →
      caveatsOk check ds fuel m.sig pre (keyedHash rootKey (strBytes m.id)) = true →
      cav.IsThirdParty = false →
      check cav.caveatId = (false, e) →
      m.Verify fuel rootKey check ds = (false, e)) ∧
    (∀ ch1 ch2 : Checker, CheckerAgree ch1 ch2 →
      m.Verify fuel rootKey ch1 ds = m.Verify fuel rootKey ch2 ds) := by
  constructor
  · intro check pre cav rest e hcavs hok htp hch
    unfold Macaroon.Verify Macaroon.verify
    rw [verifyAux_unfold, ite_self, hcavs]
    unfold caveatsOk at hok
    rw [verifyLoop_append check ds (subFn check ds fuel) m m.sig pre (cav :: rest) 0
      (keyedHash rootKey (strBytes m.id)) hok]
    simp [verifyLoop, htp, hch]
  · intro ch1 ch2 hag
    unfold Macaroon.Verify Macaroon.verify
    exact verifyAux_congr ds ch1 ch2 hag fuel m m.sig rootKey

/-- C4 witness: a rejecting checker's error is surfaced, and a checker
that errs alongside true verifies exactly like the always-satisfied
checker. -/
theorem c4_witness :
    ((Macaroon.New [1] "i" "l").AddFirstPartyCaveat "c").Verify 2 [1] rejectChecker []
      = (false, some (MacaroonError.checker "not a member")) ∧
    ((Macaroon.New [1] "i" "l").AddFirstPartyCaveat "c").Verify 2 [1] errTrueChecker []
      = ((Macaroon.New [1] "i" "l").AddFirstPartyCaveat "c").Verify 2 [1] alwaysOk [] := by
  constructor
  · exact (c4_amended 2 ((Macaroon.New [1] "i" "l").AddFirstPartyCaveat "c") [1] []).1
      rejectChecker [] { location := "", caveatId := "c", verificationId := [] } []
      (some (MacaroonError.checker "not a member")) (by decide) (by decide) (by decide) (by decide)
  · exact (c4_amended 2 ((Macaroon.New [1] "i" "l").AddFirstPartyCaveat "c") [1] []).2
      errTrueChecker alwaysOk
      (fun s => ⟨rfl, fun h => Bool.noConfusion h⟩)

/-- C5: for a third-party caveat, reached with all earlier caveats
checking out, whose verification id decrypts successfully under the
running caveat signature: a discharge map with no entry keyed by its
caveat id makes Verify return false with the discharge-not-found error;
and a macaroon with an added third-party caveat verifies successfully when
given the correctly minted (with the recovered root key, i.e. the nonce,
and the caveat id as identifier) and correctly bound discharge macaroon. -/
theorem c5_discharge_lookup (fuel : Nat) :
    (∀ (m : Macaroon) (rootKey : Bytes) (check : Checker) (ds : Discharges)
        (pre : List Caveat) (cav : Caveat) (rest : List Caveat) (k : Bytes),
      m.caveats = pre ++ cav :: rest →
      caveatsOk check ds fuel m.sig pre (keyedHash rootKey (strBytes m.id)) = true →
      cav.IsThirdParty = true →
      decrypt (chainFrom (keyedHash rootKey (strBytes m.id)) pre) cav.verificationId = some k →
      ds.lookup cav.caveatId = none →
      m.Verify fuel rootKey check ds = (false, some (MacaroonError.dischargeNotFound pre.length))) ∧
    (∀ (rootKey : Bytes) (id loc : String) (secret : Bytes) (cond tloc dloc : String)
        (nonce : Bytes) (check : Checker),
      (scenarioRoot rootKey id loc secret cond tloc nonce).1.Verify (fuel + 1) rootKey check
        [((scenarioRoot rootKey id loc secret cond tloc nonce).2,
          scenarioDischarge (scenarioRoot rootKey id loc secret cond tloc nonce) dloc nonce)]
      = (true, none)) := by
  constructor
  · intro m rootKey check ds pre cav rest k hcavs hok htp hd hl
    unfold Macaroon.Verify Macaroon.verify
    rw [verifyAux_unfold, ite_self, hcavs]
    unfold caveatsOk at hok
    rw [verifyLoop_append check ds (subFn check ds fuel) m m.sig pre (cav :: rest) 0
      (keyedHash rootKey (strBytes m.id)) hok]
    simp [verifyLoop, htp, hd, hl]
  · intro rootKey id loc secret cond tloc dloc nonce check
    unfold Macaroon.Verify Macaroon.verify scenarioDischarge scenarioRoot
    simp only [Macaroon.AddThirdPartyCaveat, Macaroon.addCaveat, Macaroon.New, Macaroon.Bind]
    rw [verifyAux_unfold]
    simp only [ite_self, List.nil_append]
    simp [verifyLoop, subFn, verifyAux_unfold, isThirdParty_encrypt, decrypt_encrypt,
      lookupConsSelf, keyedHash_ne_nil, bindForRequest]

/-- C5 witness: the scenario macaroon with one third-party caveat fails
with discharge-not-found at index 0 under an empty discharge map, and
verifies with the correctly minted and bound discharge. -/
theorem c5_witness :
    (scenarioRoot [1] "i" "l" [2] "c" "t" [3]).1.Verify 5 [1] alwaysOk []
      = (false, some (MacaroonError.dischargeNotFound 0)) ∧
    (scenarioRoot [1] "i" "l" [2] "c" "t" [3]).1.Verify 5 [1] alwaysOk
        [((scenarioRoot [1] "i" "l" [2] "c" "t" [3]).2,
          scenarioDischarge (scenarioRoot [1] "i" "l" [2] "c" "t" [3]) "d" [3])]
      = (true, none) :=
  ⟨(c5_discharge_lookup 5).1 (scenarioRoot [1] "i" "l" [2] "c" "t" [3]).1 [1] alwaysOk []
      [] { location := "t",
           caveatId := b64Encode (encrypt [2] (marshalTPCId { RootKey := [3], Caveat := "c" })),
           verificationId := encrypt (keyedHash [1] (strBytes "i")) [3] } [] [3]
      (by decide) (by decide) (by decide) (by decide) (by decide),
   (c5_discharge_lookup 4).2 [1] "i" "l" [2] "c" "t" "d" [3] alwaysOk⟩

/-- Round-trip of a caveat through its serializable document, into any
receiver. -/
theorem caveat_doc_roundtrip (c c0 : Caveat) (h : ∀ b ∈ c.verificationId, b < 256) :
    Caveat.UnmarshalDoc c0 c.MarshalDoc = (c, none) := by
  simp [Caveat.UnmarshalDoc, Caveat.MarshalDoc, hex_roundtrip _ h]

/-- Round-trip of a caveat sequence through its documents. -/
theorem decode_caveat_docs (cavs : List Caveat)
    (h : ∀ c ∈ cavs, ∀ b ∈ c.verificationId, b < 256) :
    decodeCaveatDocs (cavs.map Caveat.MarshalDoc) = some cavs := by
  induction cavs with
  | nil => rfl
  | cons c rest ih =>
    have hc := caveat_doc_roundtrip c { location := "", caveatId := "", verificationId := [] }
      (h c (by simp))
    simp [decodeCaveatDocs, hc, ih (fun x hx => h x (by simp [hx]))]

/-- C7: decoding the encoded wire document of any macaroon (into any
receiver) reproduces a macaroon with identical location, identifier,
signature bytes and caveat sequence, in order, with every caveat's
location, caveat id and verification id preserved. -/
theorem c7_roundtrip (m m0 : Macaroon)
    (hsig : ∀ b ∈ m.sig, b < 256)
    (hcav : ∀ c ∈ m.caveats, ∀ b ∈ c.verificationId, b < 256) :
    Macaroon.unmarshalJSONWire m0 m.marshalJSONWire = (m, none) := by
  simp [Macaroon.marshalJSONWire, Macaroon.unmarshalJSONWire,
    decode_caveat_docs m.caveats hcav, Macaroon.UnmarshalDoc, hex_roundtrip _ hsig]

/-- C7 witness: a macaroon with one first-party and one third-party caveat
round-trips bit-for-bit into an unrelated receiver. -/
theorem c7_witness :
    Macaroon.unmarshalJSONWire c7Receiver (Macaroon.marshalJSONWire c7SampleMacaroon)
      = (c7SampleMacaroon, none) :=
  c7_roundtrip c7SampleMacaroon c7Receiver (by decide) (by decide)

/-- C9: Discharge surfaces a decode failure as the wrapped decode error
and mints nothing; a checker failure on the decoded condition is returned
as-is and the minter is never invoked (the result is the same for every
minter); only when both succeed is the minter invoked, with the caveat id
as the new macaroon's identifier and the decoded root key as its signing
key — shown both abstractly and for the spec-modelled minter. -/
theorem c9_discharge_flow (C : Type) (d : Discharger C) (cid : String) :
    (∀ e, d.Decoder cid = Except.error e →
      d.Discharge cid = Except.error ("discharger cannot decode caveat id: " ++ e)) ∧
    (∀ rk cond e, d.Decoder cid = Except.ok (rk, cond) → d.Checker cond = Except.error e →
      d.Discharge cid = Except.error e ∧
      ∀ f : String → Bytes → List C → Except String Macaroon,
        Discharger.Discharge { d with Factory := f } cid = Except.error e) ∧
    (∀ rk cond cavs, d.Decoder cid = Except.ok (rk, cond) → d.Checker cond = Except.ok cavs →
      d.Discharge cid = d.Factory cid rk cavs) ∧
    (∀ (d2 : Discharger String) (rk : Bytes) (cond : String) (cavs : List String) (loc : String),
      d2.Decoder cid = Except.ok (rk, cond) → d2.Checker cond = Except.ok cavs →
      Discharger.Discharge { d2 with Factory := specNewMacaroon loc } cid
          = Except.ok (cavs.foldl Macaroon.AddFirstPartyCaveat (Macaroon.New rk cid loc)) ∧
        (cavs.foldl Macaroon.AddFirstPartyCaveat (Macaroon.New rk cid loc)).id = cid ∧
        (cavs.foldl Macaroon.AddFirstPartyCaveat (Macaroon.New rk cid loc)).sig
          = chainFrom (keyedHash rk (strBytes cid))
              (cavs.foldl Macaroon.AddFirstPartyCaveat (Macaroon.New rk cid loc)).caveats) := by
  refine ⟨?_, ?_, ?_, ?_⟩
  · intro e he
    simp [Discharger.Discharge, he]
  · intro rk cond e h1 h2
    exact ⟨by simp [Discharger.Discharge, h1, h2], fun f => by simp [Discharger.Discharge, h1, h2]⟩
  · intro rk cond cavs h1 h2
    simp [Discharger.Discharge, h1, h2]
  · intro d2 rk cond cavs loc h1 h2
    refine ⟨by simp [Discharger.Discharge, h1, h2, specNewMacaroon], ?_, ?_⟩
    · rw [foldl_first_eq_ops, foldl_applyOp_id]; rfl
    · rw [foldl_first_eq_ops]
      apply foldl_applyOp_chain
      rfl

/-- C9 witness: the three outcomes of Discharge on the concrete
discharger, plus the spec-modelled minter result. -/
theorem c9_witness :
    witnessDischarger.Discharge "bad"
      = Except.error ("discharger cannot decode caveat id: " ++ "malformed") ∧
    witnessDischarger.Discharge "reject" = Except.error "condition rejected" ∧
    witnessDischarger.Discharge "good" = witnessDischarger.Factory "good" [9] [] ∧
    Discharger.Discharge { witnessDischarger with Factory := specNewMacaroon "L" } "good"
      = Except.ok (([] : List String).foldl Macaroon.AddFirstPartyCaveat (Macaroon.New [9] "good" "L")) :=
  ⟨(c9_discharge_flow String witnessDischarger "bad").1 "malformed" rfl,
   ((c9_discharge_flow String witnessDischarger "reject").2.1 [9] "is-member" "condition rejected"
      rfl rfl).1,
   (c9_discharge_flow String witnessDischarger "good").2.2.1 [9] "ok-cond" [] rfl rfl,
   ((c9_discharge_flow String witnessDischarger "good").2.2.2 witnessDischarger [9] "ok-cond" []
      "L" rfl rfl).1⟩
